import Mathlib

/-!
Shallow embedding of the gfx HAL device backend sources:
- `src/backend/dx11/src/data.rs` (format translator `map_format`)
- `src/backend/metal/src/device.rs` (capability probe, pipeline layout
  compiler, vertex attribute remapping, descriptor pools/layouts, memory
  allocator, mapped-range invalidation, buffer requirements, fence wait,
  descriptor set copy)

Machine integers (`u32`, `u64`, `usize`) are modelled as `Nat`, with an
explicit `% 2^32` / `% 2^64` at the places where the Rust code performs a
truncating `as` cast or a wrapping arithmetic operation.  Rust panics
(`assert!`, `unimplemented!`, `unwrap`, `expect`) are modelled by returning
`none` from an `Option`-valued function.
-/

set_option autoImplicit false

namespace Gfx

/-! ### dx11 `data.rs`: the format translator -/

/-- Abstract surface layouts (`gfx_core::format::SurfaceType`). -/
inductive SurfaceType
  | R3_G3_B2 | R4_G4 | R4_G4_B4_A4 | R5_G5_B5_A1 | R5_G6_B5
  | R8 | R8_G8 | R8_G8_B8 | R8_G8_B8_A8
  | R10_G10_B10_A2 | R11_G11_B10
  | R16 | R16_G16 | R16_G16_B16 | R16_G16_B16_A16
  | R32 | R32_G32 | R32_G32_B32 | R32_G32_B32_A32
  | D16 | D24 | D24_S8 | D32
  deriving DecidableEq, Fintype, Repr

/-- Abstract channel types (`gfx_core::format::ChannelType`). -/
inductive ChannelType
  | Int | Uint | Inorm | Unorm | Iscaled | Uscaled | Srgb | Float
  deriving DecidableEq, Fintype, Repr

/-- Native DXGI formats returned by the translator (`DXGI_FORMAT_*`). -/
inductive DXGIFormat
  | R8_SINT | R8_UINT | R8_SNORM | R8_UNORM
  | R8G8_SINT | R8G8_UINT | R8G8_SNORM | R8G8_UNORM
  | R8G8B8A8_SINT | R8G8B8A8_UINT | R8G8B8A8_SNORM | R8G8B8A8_UNORM
  | R8G8B8A8_UNORM_SRGB
  | R10G10B10A2_UINT | R10G10B10A2_UNORM
  | R11G11B10_FLOAT
  | R16_SINT | R16_UINT | R16_SNORM | R16_UNORM | R16_FLOAT
  | R16G16_SINT | R16G16_UINT | R16G16_SNORM | R16G16_UNORM | R16G16_FLOAT
  | R16G16B16A16_SINT | R16G16B16A16_UINT | R16G16B16A16_SNORM
  | R16G16B16A16_UNORM | R16G16B16A16_FLOAT
  | R32_SINT | R32_UINT | R32_FLOAT
  | R32G32_SINT | R32G32_UINT | R32G32_FLOAT
  | R32G32B32_SINT | R32G32B32_UINT | R32G32B32_FLOAT
  | R32G32B32A32_SINT | R32G32B32A32_UINT | R32G32B32A32_FLOAT
  | D16_UNORM | D24_UNORM_S8_UINT | D32_FLOAT
  deriving DecidableEq, Fintype, Repr

/-- Translation of `map_format` from `src/backend/dx11/src/data.rs`
(lines 18-108).  The outer match is on the surface type (`format.0`), the
inner matches are on the channel type (`format.1`). -/
def map_format (s : SurfaceType) (c : ChannelType) : Option DXGIFormat :=
  match s with
  | .R3_G3_B2 | .R4_G4 | .R4_G4_B4_A4 | .R5_G5_B5_A1 | .R5_G6_B5 => none
  | .R8 =>
    match c with
    | .Int => some .R8_SINT
    | .Uint => some .R8_UINT
    | .Inorm => some .R8_SNORM
    | .Unorm => some .R8_UNORM
    | _ => none
  | .R8_G8 =>
    match c with
    | .Int => some .R8G8_SINT
    | .Uint => some .R8G8_UINT
    | .Inorm => some .R8G8_SNORM
    | .Unorm => some .R8G8_UNORM
    | _ => none
  | .R8_G8_B8 => none
  | .R8_G8_B8_A8 =>
    match c with
    | .Int => some .R8G8B8A8_SINT
    | .Uint => some .R8G8B8A8_UINT
    | .Inorm => some .R8G8B8A8_SNORM
    | .Unorm => some .R8G8B8A8_UNORM
    | .Srgb => some .R8G8B8A8_UNORM_SRGB
    | _ => none
  | .R10_G10_B10_A2 =>
    match c with
    | .Uint => some .R10G10B10A2_UINT
    | .Unorm => some .R10G10B10A2_UNORM
    | _ => none
  | .R11_G11_B10 =>
    match c with
    | .Float => some .R11G11B10_FLOAT
    | _ => none
  | .R16 =>
    match c with
    | .Int => some .R16_SINT
    | .Uint => some .R16_UINT
    | .Inorm => some .R16_SNORM
    | .Unorm => some .R16_UNORM
    | .Float => some .R16_FLOAT
    | _ => none
  | .R16_G16 =>
    match c with
    | .Int => some .R16G16_SINT
    | .Uint => some .R16G16_UINT
    | .Inorm => some .R16G16_SNORM
    | .Unorm => some .R16G16_UNORM
    | .Float => some .R16G16_FLOAT
    | _ => none
  | .R16_G16_B16 => none
  | .R16_G16_B16_A16 =>
    match c with
    | .Int => some .R16G16B16A16_SINT
    | .Uint => some .R16G16B16A16_UINT
    | .Inorm => some .R16G16B16A16_SNORM
    | .Unorm => some .R16G16B16A16_UNORM
    | .Float => some .R16G16B16A16_FLOAT
    | _ => none
  | .R32 =>
    match c with
    | .Int => some .R32_SINT
    | .Uint => some .R32_UINT
    | .Float => some .R32_FLOAT
    | _ => none
  | .R32_G32 =>
    match c with
    | .Int => some .R32G32_SINT
    | .Uint => some .R32G32_UINT
    | .Float => some .R32G32_FLOAT
    | _ => none
  | .R32_G32_B32 =>
    match c with
    | .Int => some .R32G32B32_SINT
    | .Uint => some .R32G32B32_UINT
    | .Float => some .R32G32B32_FLOAT
    | _ => none
  | .R32_G32_B32_A32 =>
    match c with
    | .Int => some .R32G32B32A32_SINT
    | .Uint => some .R32G32B32A32_UINT
    | .Float => some .R32G32B32A32_FLOAT
    | _ => none
  | .D16 => some .D16_UNORM
  | .D24 | .D24_S8 => some .D24_UNORM_S8_UINT
  | .D32 => some .D32_FLOAT

/-- Helper for the injectivity analysis: the surface layout from which each
native format is produced (depth-stencil `D24_UNORM_S8_UINT` is attributed
to `D24`; `D24_S8` maps to it as well). -/
def mapFormatSurface : DXGIFormat → SurfaceType
  | .R8_SINT | .R8_UINT | .R8_SNORM | .R8_UNORM => .R8
  | .R8G8_SINT | .R8G8_UINT | .R8G8_SNORM | .R8G8_UNORM => .R8_G8
  | .R8G8B8A8_SINT | .R8G8B8A8_UINT | .R8G8B8A8_SNORM | .R8G8B8A8_UNORM
  | .R8G8B8A8_UNORM_SRGB => .R8_G8_B8_A8
  | .R10G10B10A2_UINT | .R10G10B10A2_UNORM => .R10_G10_B10_A2
  | .R11G11B10_FLOAT => .R11_G11_B10
  | .R16_SINT | .R16_UINT | .R16_SNORM | .R16_UNORM | .R16_FLOAT => .R16
  | .R16G16_SINT | .R16G16_UINT | .R16G16_SNORM | .R16G16_UNORM
  | .R16G16_FLOAT => .R16_G16
  | .R16G16B16A16_SINT | .R16G16B16A16_UINT | .R16G16B16A16_SNORM
  | .R16G16B16A16_UNORM | .R16G16B16A16_FLOAT => .R16_G16_B16_A16
  | .R32_SINT | .R32_UINT | .R32_FLOAT => .R32
  | .R32G32_SINT | .R32G32_UINT | .R32G32_FLOAT => .R32_G32
  | .R32G32B32_SINT | .R32G32B32_UINT | .R32G32B32_FLOAT => .R32_G32_B32
  | .R32G32B32A32_SINT | .R32G32B32A32_UINT | .R32G32B32A32_FLOAT =>
    .R32_G32_B32_A32
  | .D16_UNORM => .D16
  | .D24_UNORM_S8_UINT => .D24
  | .D32_FLOAT => .D32

/-! ### metal `device.rs`: capability probe -/

/-- Metal feature sets referenced by `device.rs` (a subset of the full
`MTLFeatureSet` enumeration; only these members are ever queried). -/
inductive MTLFeatureSet
  | iOS_GPUFamily1_v3 | iOS_GPUFamily2_v3 | iOS_GPUFamily3_v2
  | tvOS_GPUFamily1_v2
  | iOS_GPUFamily1_v4 | tvOS_GPUFamily1_v3 | macOS_GPUFamily1_v3
  | macOS_GPUFamily1_v1 | macOS_GPUFamily1_v2
  deriving DecidableEq, Repr

/-- Constant table `RESOURCE_HEAP_SUPPORT` (device.rs lines 29-34). -/
def RESOURCE_HEAP_SUPPORT : List MTLFeatureSet :=
  [.iOS_GPUFamily1_v3, .iOS_GPUFamily2_v3, .iOS_GPUFamily3_v2,
   .tvOS_GPUFamily1_v2]

/-- Constant table `ARGUMENT_BUFFER_SUPPORT` (device.rs lines 36-40). -/
def ARGUMENT_BUFFER_SUPPORT : List MTLFeatureSet :=
  [.iOS_GPUFamily1_v4, .tvOS_GPUFamily1_v3, .macOS_GPUFamily1_v3]

/-- Constant `PUSH_CONSTANTS_DESC_SET: u32 = !0` (device.rs line 42). -/
def PUSH_CONSTANTS_DESC_SET : Nat := 2 ^ 32 - 1

/-- Constant `PUSH_CONSTANTS_DESC_BINDING: u32 = 0` (device.rs line 43). -/
def PUSH_CONSTANTS_DESC_BINDING : Nat := 0

/-- The aspects of a native Metal device the probe consults: feature-set
membership (`supports_feature_set`) and depth24-stencil8 support
(`d24_s8_supported`). -/
structure MetalDevice where
  supports_feature_set : MTLFeatureSet → Bool
  d24_s8_supported : Bool

/-- Translation of `PhysicalDevice::is_mac` (device.rs lines 163-165). -/
def is_mac (raw : MetalDevice) : Bool :=
  raw.supports_feature_set .macOS_GPUFamily1_v1

/-- Translation of `PhysicalDevice::supports_any` (device.rs lines 166-168). -/
def supports_any (raw : MetalDevice) (features_sets : List MTLFeatureSet) :
    Bool :=
  features_sets.any (fun x => raw.supports_feature_set x)

/-- The capability record `PrivateCapabilities` with exactly the fields
filled in by `PhysicalDevice::new` (device.rs lines 170-191). -/
structure PrivateCapabilities where
  resource_heaps : Bool
  argument_buffers : Bool
  shared_textures : Bool
  format_depth24_stencil8 : Bool
  format_depth32_stencil8 : Bool
  format_min_srgb_channels : Nat
  format_b5 : Bool
  max_buffers_per_stage : Nat
  max_textures_per_stage : Nat
  max_samplers_per_stage : Nat
  buffer_alignment : Nat
  max_buffer_size : Nat
  deriving Repr

/-- Translation of the `private_caps` computation inside
`PhysicalDevice::new` (device.rs lines 171-191).  Note the literal
`&& false` on `argument_buffers`, taken verbatim from the source. -/
def probe_private_caps (device : MetalDevice) : PrivateCapabilities :=
  { resource_heaps := supports_any device RESOURCE_HEAP_SUPPORT
    argument_buffers := supports_any device ARGUMENT_BUFFER_SUPPORT && false
    shared_textures := !(is_mac device)
    format_depth24_stencil8 := device.d24_s8_supported
    format_depth32_stencil8 := false
    format_min_srgb_channels := if is_mac device then 4 else 1
    format_b5 := !(is_mac device)
    max_buffers_per_stage := 31
    max_textures_per_stage := if is_mac device then 128 else 31
    max_samplers_per_stage := 16
    buffer_alignment := if is_mac device then 256 else 64
    max_buffer_size :=
      if supports_any device [.macOS_GPUFamily1_v2, .macOS_GPUFamily1_v3]
      then 2 ^ 30 else 2 ^ 28 }

/-- Memory property flags of `hal::memory::Properties` used by the four
memory types. -/
structure MemProperties where
  device_local : Bool
  cpu_visible : Bool
  coherent : Bool
  cpu_cached : Bool
  deriving DecidableEq, Repr

/-- One `hal::MemoryType` entry (properties plus heap index). -/
structure HalMemoryType where
  properties : MemProperties
  heap_index : Nat
  deriving Repr

/-- The fixed `memory_types` array built by `PhysicalDevice::new`
(device.rs lines 195-212): PRIVATE, SHARED, MANAGED_UPLOAD,
MANAGED_DOWNLOAD. -/
def physical_device_memory_types : List HalMemoryType :=
  [ { properties :=
        { device_local := true, cpu_visible := false, coherent := false
          cpu_cached := false }
      heap_index := 0 },
    { properties :=
        { device_local := false, cpu_visible := true, coherent := true
          cpu_cached := false }
      heap_index := 1 },
    { properties :=
        { device_local := true, cpu_visible := true, coherent := false
          cpu_cached := false }
      heap_index := 1 },
    { properties :=
        { device_local := true, cpu_visible := true, coherent := false
          cpu_cached := true }
      heap_index := 1 } ]

/-- Result record of `PhysicalDevice::new`. -/
structure PhysicalDevice where
  memory_types : List HalMemoryType
  private_caps : PrivateCapabilities

/-- Translation of `PhysicalDevice::new` (device.rs lines 170-215):
computes the capability record, then asserts that the reserved
push-constants buffer id lies strictly below `max_buffers_per_stage`
(line 192); the assertion failure is modelled as `none`. -/
def PhysicalDevice.new (push_constants_buffer_id : Nat)
    (device : MetalDevice) : Option PhysicalDevice :=
  let private_caps := probe_private_caps device
  if push_constants_buffer_id < private_caps.max_buffers_per_stage then
    some { memory_types := physical_device_memory_types, private_caps }
  else
    none

/-! ### metal `device.rs`: descriptor pools and set layouts -/

/-- Descriptor types of `hal::pso::DescriptorType`. -/
inductive DescriptorType
  | Sampler | SampledImage | StorageImage
  | UniformTexelBuffer | StorageTexelBuffer
  | UniformBuffer | StorageBuffer
  | InputAttachment | CombinedImageSampler
  | UniformBufferDynamic | UniformImageDynamic
  deriving DecidableEq, Repr

/-- The three shader stage bits of `pso::ShaderStageFlags` that the metal
backend queries (VERTEX, FRAGMENT, COMPUTE). -/
structure ShaderStageFlags where
  vertex : Bool
  fragment : Bool
  compute : Bool
  deriving DecidableEq, Repr

/-- Bitwise union of stage flags (the `|=` in
`create_descriptor_set_layout`). -/
def ShaderStageFlags.union (a b : ShaderStageFlags) : ShaderStageFlags :=
  { vertex := a.vertex || b.vertex
    fragment := a.fragment || b.fragment
    compute := a.compute || b.compute }

/-- The three programmable stages the layout compiler walks. -/
inductive Stage
  | vertex | fragment | compute
  deriving DecidableEq, Repr

/-- Membership test `stage_flags.contains(stage_bit)` for a single stage
bit. -/
def ShaderStageFlags.containsStage (f : ShaderStageFlags) : Stage → Bool
  | .vertex => f.vertex
  | .fragment => f.fragment
  | .compute => f.compute

/-- One `pso::DescriptorSetLayoutBinding`. -/
structure DescriptorSetLayoutBinding where
  binding : Nat
  ty : DescriptorType
  count : Nat
  stage_flags : ShaderStageFlags
  deriving DecidableEq, Repr

/-- One `pso::DescriptorRangeDesc` (type plus count). -/
structure DescriptorRangeDesc where
  ty : DescriptorType
  count : Nat
  deriving DecidableEq, Repr

/-- Values of `MTLArgumentAccess` used by `describe_argument`. -/
inductive MTLArgumentAccess
  | ReadOnly | ReadWrite
  deriving DecidableEq, Repr

/-- Values of `MTLDataType` used by `describe_argument`. -/
inductive MTLDataType
  | Sampler | Texture | Struct
  deriving DecidableEq, Repr

/-- A `metal::ArgumentDescriptor` restricted to the fields
`describe_argument` sets: array length, access, data type, index. -/
structure ArgumentDescriptor where
  array_length : Nat
  access : MTLArgumentAccess
  data_type : MTLDataType
  index : Nat
  deriving DecidableEq, Repr

/-- Translation of `Device::describe_argument` (device.rs lines 526-557);
the `unimplemented!()` arm is modelled as `none`. -/
def describe_argument (ty : DescriptorType) (index : Nat) (count : Nat) :
    Option ArgumentDescriptor :=
  match ty with
  | .Sampler =>
    some { array_length := count, access := .ReadOnly, data_type := .Sampler
           index }
  | .SampledImage =>
    some { array_length := count, access := .ReadOnly, data_type := .Texture
           index }
  | .UniformBuffer =>
    some { array_length := count, access := .ReadOnly, data_type := .Struct
           index }
  | .StorageBuffer =>
    some { array_length := count, access := .ReadWrite, data_type := .Struct
           index }
  | _ => none

/-- The two descriptor pool variants of `n::DescriptorPool`.  The
argument-buffer variant's native buffer and sizes are abstracted to the
list of argument descriptors that determines them. -/
inductive DescriptorPool
  | Emulated
  | ArgumentBuffer (arguments : List ArgumentDescriptor)
  deriving DecidableEq, Repr

/-- Internal state of the argument-counting loop in
`create_descriptor_pool`: the three offset counters plus the collected
argument descriptors. -/
structure PoolCounters where
  num_samplers : Nat
  num_textures : Nat
  num_uniforms : Nat
  arguments : List ArgumentDescriptor

/-- Translation of `create_descriptor_pool` (device.rs lines 1239-1277).
When the capability record has no argument-buffer support the emulated
pool is returned immediately; otherwise each descriptor range picks and
advances its category counter and is turned into an argument descriptor
(`unimplemented!()` arms give `none`). -/
def create_descriptor_pool (caps : PrivateCapabilities)
    (descriptor_ranges : List DescriptorRangeDesc) :
    Option DescriptorPool :=
  if !caps.argument_buffers then
    some .Emulated
  else
    let counted : Option PoolCounters := descriptor_ranges.foldlM
      (fun (st : PoolCounters) (desc : DescriptorRangeDesc) => do
        let (index, st') :=
          match desc.ty with
          | .Sampler =>
            (st.num_samplers,
             { st with num_samplers := st.num_samplers + desc.count })
          | .SampledImage =>
            (st.num_textures,
             { st with num_textures := st.num_textures + desc.count })
          | .UniformBuffer | .StorageBuffer =>
            (st.num_uniforms,
             { st with num_uniforms := st.num_uniforms + desc.count })
          | _ => (0, st)
        match desc.ty with
        | .Sampler | .SampledImage | .UniformBuffer | .StorageBuffer =>
          let arg ← describe_argument desc.ty index desc.count
          pure { st' with arguments := st'.arguments ++ [arg] }
        | _ => none)
      { num_samplers := 0, num_textures := 0, num_uniforms := 0
        arguments := [] }
    counted.map (fun st => .ArgumentBuffer st.arguments)

/-- The two set-layout variants of `n::DescriptorSetLayout`.  The
argument-buffer variant's native encoder is abstracted to the argument
descriptors it was built from. -/
inductive DescriptorSetLayout
  | Emulated (bindings : List DescriptorSetLayoutBinding)
  | ArgumentBuffer (arguments : List ArgumentDescriptor)
      (stage_flags : ShaderStageFlags)
  deriving DecidableEq, Repr

/-- Translation of `create_descriptor_set_layout` (device.rs lines
1279-1303): without argument-buffer support the bindings are stored
as-is in the emulated representation; otherwise the stage flags are
unioned and each binding becomes an argument descriptor. -/
def create_descriptor_set_layout (caps : PrivateCapabilities)
    (bindings : List DescriptorSetLayoutBinding) :
    Option DescriptorSetLayout :=
  if !caps.argument_buffers then
    some (.Emulated bindings)
  else
    let folded : Option (ShaderStageFlags × List ArgumentDescriptor) :=
      bindings.foldlM
      (fun (st : ShaderStageFlags × List ArgumentDescriptor)
           (desc : DescriptorSetLayoutBinding) => do
        let arg ← describe_argument desc.ty desc.binding desc.count
        pure (st.1.union desc.stage_flags, st.2 ++ [arg]))
      ({ vertex := false, fragment := false, compute := false }, [])
    folded.map (fun st => .ArgumentBuffer st.2 st.1)

/-! ### metal `device.rs`: the pipeline layout compiler -/

/-- Value of `!0` at type `u32` (the "unused" sentinel of
`msl::ResourceBinding`). -/
def U32_MAX : Nat := 2 ^ 32 - 1

/-- Generic association-list lookup with latest-insert-wins semantics
(inserting is prepending), mirroring `HashMap` lookup. -/
def alistLookup {κ ν : Type} [DecidableEq κ] (m : List (κ × ν)) (k : κ) :
    Option ν :=
  (m.find? fun p => decide (p.1 = k)).map (fun p => p.2)

/-- Per-stage slot counters of the layout compiler (`struct Counters`,
device.rs lines 648-652). -/
structure Counters where
  buffers : Nat
  textures : Nat
  samplers : Nat
  deriving DecidableEq, Repr

/-- The `msl::ResourceBindingLocation` key: stage, descriptor set index,
binding index. -/
structure ResourceBindingLocation where
  stage : Stage
  desc_set : Nat
  binding : Nat
  deriving DecidableEq, Repr

/-- The `msl::ResourceBinding` value: the override slots for one
location. -/
structure ResourceBinding where
  buffer_id : Nat
  texture_id : Nat
  sampler_id : Nat
  force_used : Bool
  deriving DecidableEq, Repr

/-- The override table (`res_overrides`), a `HashMap` modelled as an
association list where insertion prepends. -/
abbrev ResOverrides := List (ResourceBindingLocation × ResourceBinding)

/-- The three per-stage counter records of `stage_infos`. -/
structure StageCounters where
  vertex : Counters
  fragment : Counters
  compute : Counters
  deriving DecidableEq, Repr

/-- Select the counters of one stage. -/
def StageCounters.get (sc : StageCounters) : Stage → Counters
  | .vertex => sc.vertex
  | .fragment => sc.fragment
  | .compute => sc.compute

/-- Replace the counters of one stage. -/
def StageCounters.set (sc : StageCounters) : Stage → Counters → StageCounters
  | .vertex, c => { sc with vertex := c }
  | .fragment, c => { sc with fragment := c }
  | .compute, c => { sc with compute := c }

/-- Mutable state of `create_pipeline_layout`: the per-stage counters and
the override table. -/
structure PLState where
  counters : StageCounters
  res_overrides : ResOverrides

/-- The fixed iteration order of `stage_infos` (vertex, fragment,
compute). -/
def stage_order : List Stage := [.vertex, .fragment, .compute]

/-- Translation of the per-binding, per-stage body of the emulated-layout
loop of `create_pipeline_layout` (device.rs lines 663-709).  `usize`
counters are truncated with `% 2 ^ 32` where the source casts them to the
`u32` fields of `msl::ResourceBinding`; `unimplemented!()` for dynamic
descriptors and the `assert_eq!(set_binding.count, 1)` are modelled as
`none`. -/
def process_binding_stage (set_index : Nat)
    (set_binding : DescriptorSetLayoutBinding) (st : PLState) (s : Stage) :
    Option PLState :=
  if !(set_binding.stage_flags.containsStage s) then
    some st
  else
    let c := st.counters.get s
    let assigned : Option (ResourceBinding × Counters) :=
      match set_binding.ty with
      | .UniformBuffer | .StorageBuffer =>
        some ({ buffer_id := c.buffers % 2 ^ 32, texture_id := U32_MAX,
                sampler_id := U32_MAX, force_used := false },
              { c with buffers := c.buffers + 1 })
      | .SampledImage | .StorageImage | .UniformTexelBuffer
      | .StorageTexelBuffer | .InputAttachment =>
        some ({ buffer_id := U32_MAX, texture_id := c.textures % 2 ^ 32,
                sampler_id := U32_MAX, force_used := false },
              { c with textures := c.textures + 1 })
      | .Sampler =>
        some ({ buffer_id := U32_MAX, texture_id := U32_MAX,
                sampler_id := c.samplers % 2 ^ 32, force_used := false },
              { c with samplers := c.samplers + 1 })
      | .CombinedImageSampler =>
        some ({ buffer_id := U32_MAX, texture_id := c.textures % 2 ^ 32,
                sampler_id := c.samplers % 2 ^ 32, force_used := false },
              { c with textures := c.textures + 1
                       samplers := c.samplers + 1 })
      | .UniformBufferDynamic | .UniformImageDynamic => none
    match assigned with
    | none => none
    | some (res, c') =>
      if set_binding.count = 1 then
        some { counters := st.counters.set s c'
               res_overrides :=
                 ({ stage := s, desc_set := set_index % 2 ^ 32,
                    binding := set_binding.binding }, res) ::
                   st.res_overrides }
      else
        none

/-- Translation of the per-set-layout body of `create_pipeline_layout`
(device.rs lines 660-732), covering both the emulated and the
argument-buffer representation of a descriptor set layout. -/
def process_set_layout (st : PLState) (isl : Nat × DescriptorSetLayout) :
    Option PLState :=
  match isl.2 with
  | .Emulated set_bindings =>
    set_bindings.foldlM
      (fun st b => stage_order.foldlM (process_binding_stage isl.1 b) st) st
  | .ArgumentBuffer _ stage_flags =>
    stage_order.foldlM
      (fun st s =>
        if !(stage_flags.containsStage s) then
          some st
        else
          let c := st.counters.get s
          some { counters :=
                   st.counters.set s { c with buffers := c.buffers + 1 }
                 res_overrides :=
                   ({ stage := s, desc_set := isl.1 % 2 ^ 32, binding := 0 },
                    { buffer_id := c.buffers % 2 ^ 32, texture_id := U32_MAX,
                      sampler_id := U32_MAX, force_used := false }) ::
                     st.res_overrides })
      st

/-- One push-constant range argument: `(pso::ShaderStageFlags,
Range<u32>)`; `start`/`stop` are the range's `start`/`end` bounds. -/
structure PushConstantRange where
  stage_flags : ShaderStageFlags
  start : Nat
  stop : Nat
  deriving DecidableEq, Repr

/-- Translation of the `pc_limits` computation (device.rs lines 734-742):
the maximum `range.end` over all ranges whose stage mask contains the
given stage. -/
def pc_limit (push_constant_ranges : List PushConstantRange) (s : Stage) :
    Nat :=
  push_constant_ranges.foldl
    (fun limit pcr =>
      if pcr.stage_flags.containsStage s then max pcr.stop limit else limit)
    0

/-- Translation of the per-stage push-constant/limit pass of
`create_pipeline_layout` (device.rs lines 744-768); the `assert!`
failures are modelled as `none`. -/
def finish_stage (caps : PrivateCapabilities)
    (push_constants_buffer_id : Nat) (limit : Nat) (s : Stage)
    (st : PLState) : Option PLState :=
  let c := st.counters.get s
  let after_buffers : Option PLState :=
    if limit ≠ 0 then
      let buffer_id := push_constants_buffer_id
      let st' : PLState :=
        { st with
            res_overrides :=
              ({ stage := s, desc_set := PUSH_CONSTANTS_DESC_SET,
                 binding := PUSH_CONSTANTS_DESC_BINDING },
               { buffer_id, texture_id := U32_MAX, sampler_id := U32_MAX,
                 force_used := false }) :: st.res_overrides }
      if c.buffers < buffer_id then some st' else none
    else
      if c.buffers ≤ caps.max_buffers_per_stage then some st else none
  match after_buffers with
  | none => none
  | some st1 =>
    if c.textures ≤ caps.max_textures_per_stage then
      if c.samplers ≤ caps.max_samplers_per_stage then some st1 else none
    else
      none

/-- The compiled `n::PipelineLayout`: the first free vertex-stage buffer
slot and the override table. -/
structure PipelineLayout where
  attribute_buffer_index : Nat
  res_overrides : ResOverrides
  deriving DecidableEq, Repr

/-- Translation of `create_pipeline_layout` (device.rs lines 635-774):
walk the descriptor set layouts in order, then run the per-stage
push-constant/limit pass over the three stages in `stage_infos` order,
and package the result. -/
def create_pipeline_layout (caps : PrivateCapabilities)
    (push_constants_buffer_id : Nat)
    (set_layouts : List DescriptorSetLayout)
    (push_constant_ranges : List PushConstantRange) :
    Option PipelineLayout := do
  let init : PLState :=
    { counters :=
        { vertex := ⟨0, 0, 0⟩, fragment := ⟨0, 0, 0⟩, compute := ⟨0, 0, 0⟩ }
      res_overrides := [] }
  let st ← set_layouts.enum.foldlM process_set_layout init
  let st ← finish_stage caps push_constants_buffer_id
    (pc_limit push_constant_ranges .vertex) .vertex st
  let st ← finish_stage caps push_constants_buffer_id
    (pc_limit push_constant_ranges .fragment) .fragment st
  let st ← finish_stage caps push_constants_buffer_id
    (pc_limit push_constant_ranges .compute) .compute st
  pure { attribute_buffer_index := (st.counters.get .vertex).buffers % 2 ^ 32
         res_overrides := st.res_overrides }

/-! ### metal `device.rs`: vertex attribute remapping -/

/-- One `pso::VertexBufferDesc` (binding slot, stride, instance rate);
used both for the pipeline's declared vertex buffers and for the values
of the synthesized `VertexBufferMap`. -/
structure VertexBufferDesc where
  binding : Nat
  stride : Nat
  rate : Nat
  deriving DecidableEq, Repr

/-- One `pso::AttributeDesc` restricted to the fields the remapping loop
reads (`{ binding, element, .. }`); the element's format is abstracted to
its surface bit width `element.format.surface_desc().bits`. -/
structure AttributeDesc where
  binding : Nat
  element_offset : Nat
  element_surface_bits : Nat
  deriving DecidableEq, Repr

/-- State of the vertex-attribute remapping loop of
`create_graphics_pipeline` (device.rs lines 906-958): the synthesized
`VertexBufferMap` keyed by `(binding, base_offset)`, the
`next_buffer_index` counter, and the per-attribute buffer index handed to
`set_buffer_index`, recorded together with the attribute's map key. -/
structure RemapState where
  vertex_buffer_map : List ((Nat × Nat) × VertexBufferDesc)
  next_buffer_index : Nat
  assignments : List ((Nat × Nat) × Nat)
  deriving DecidableEq, Repr

/-- The wrapping-offset computation of the attribute loop (device.rs
lines 917-928), yielding the `base_offset` component of the map key.  A
zero stride makes the source's `element.offset % original.stride` panic
(division by zero), modelled as `none`. -/
def remap_base_offset (original : VertexBufferDesc) (attr : AttributeDesc) :
    Option Nat :=
  if attr.element_offset < original.stride then
    some 0
  else if original.stride = 0 then
    none
  else
    let elem_size := attr.element_surface_bits / 8
    let remainder := attr.element_offset % original.stride
    if remainder + elem_size ≤ original.stride then
      some (attr.element_offset - remainder)
    else
      some attr.element_offset

/-- Translation of one iteration of the attribute loop (device.rs lines
912-958).  Failures modelled as `none`: a missing associated vertex
buffer (`expect`), a zero stride inside `remap_base_offset`, and slot
exhaustion when a vacant entry is needed but `next_buffer_index` has
reached the reserved push-constants slot. -/
def remap_attribute (push_constants_buffer_id : Nat)
    (vertex_buffers : List VertexBufferDesc) (st : RemapState)
    (attr : AttributeDesc) : Option RemapState :=
  (vertex_buffers.find? (fun vb => vb.binding == attr.binding)).bind
    fun original =>
  (remap_base_offset original attr).bind fun base_offset =>
    match alistLookup st.vertex_buffer_map (attr.binding, base_offset) with
    | some vb =>
      some { st with assignments :=
               st.assignments ++ [((attr.binding, base_offset), vb.binding)] }
    | none =>
      if st.next_buffer_index = push_constants_buffer_id then
        none
      else
        some { vertex_buffer_map :=
                 ((attr.binding, base_offset),
                  { binding := st.next_buffer_index
                    stride := original.stride
                    rate := original.rate }) :: st.vertex_buffer_map
               next_buffer_index := st.next_buffer_index + 1
               assignments :=
                 st.assignments ++
                   [((attr.binding, base_offset), st.next_buffer_index)] }

/-- The whole attribute remapping loop, starting the counter at the
pipeline layout's `attribute_buffer_index`. -/
def vertex_attribute_remap (push_constants_buffer_id : Nat)
    (vertex_buffers : List VertexBufferDesc)
    (attributes : List AttributeDesc) (start_index : Nat) :
    Option RemapState :=
  attributes.foldlM (remap_attribute push_constants_buffer_id vertex_buffers)
    { vertex_buffer_map := [], next_buffer_index := start_index
      assignments := [] }

/-! ### metal `device.rs`: memory allocation and mapped-range sync -/

/-- Values of `MTLStorageMode` used by the memory type registry. -/
inductive MTLStorageMode
  | Private | Shared | Managed
  deriving DecidableEq, Repr

/-- Values of `MTLCPUCacheMode` used by the memory type registry. -/
inductive MTLCPUCacheMode
  | DefaultCache | WriteCombined
  deriving DecidableEq, Repr

/-- Translation of `MemoryTypes::describe` (device.rs lines 143-151):
`from_bits(1 << index).unwrap()` panics for any index outside the four
registered memory types, modelled as `none`. -/
def MemoryTypes.describe (index : Nat) :
    Option (MTLStorageMode × MTLCPUCacheMode) :=
  match index with
  | 0 => some (.Private, .DefaultCache)
  | 1 => some (.Shared, .DefaultCache)
  | 2 => some (.Managed, .WriteCombined)
  | 3 => some (.Managed, .DefaultCache)
  | _ => none

/-- Bits of `MemoryTypes::SHARED` (`1 << 1`). -/
def MemoryTypes.SHARED_bits : Nat := 2

/-- Bits of `MemoryTypes::all()` (all four flags). -/
def MemoryTypes.all_bits : Nat := 15

/-- The backing of `n::MemoryHeap`; the native heap and CPU buffer
objects are abstracted away, the `Public` variant keeps its memory type
index. -/
inductive MemoryHeap
  | Native
  | Public (memory_type : Nat)
  | Private
  deriving DecidableEq, Repr

/-- An `n::Memory` allocation: its heap backing and requested size. -/
structure Memory where
  heap : MemoryHeap
  size : Nat
  deriving DecidableEq, Repr

/-- Translation of `allocate_memory` (device.rs lines 1425-1447).  The
heap-selection condition contains the literal `&& false` of the source
(line 1431); `MemoryTypes::describe` panics on an invalid index, modelled
as `none`. -/
def allocate_memory (caps : PrivateCapabilities) (memory_type : Nat)
    (size : Nat) : Option Memory :=
  (MemoryTypes.describe memory_type).map fun sc =>
    let storage := sc.1
    let heap :=
      if caps.resource_heaps && !(storage == MTLStorageMode.Shared) && false
      then
        MemoryHeap.Native
      else if storage = MTLStorageMode.Private then
        MemoryHeap.Private
      else
        MemoryHeap.Public memory_type
    { heap := heap, size := size }

/-- Claimed allocation strategy, written from the words of claim C2 /
spec section 4.3 for comparison with `allocate_memory`: (a) a native heap
when heaps are supported and the mode is not exclusively host-shared,
(b) a device-private allocation when the mode is device-exclusive,
(c) otherwise a host-visible buffer. -/
def allocate_memory_claimed (caps : PrivateCapabilities) (memory_type : Nat)
    (size : Nat) : Option Memory :=
  (MemoryTypes.describe memory_type).map fun sc =>
    let storage := sc.1
    let heap :=
      if caps.resource_heaps && !(storage == MTLStorageMode.Shared) then
        MemoryHeap.Native
      else if storage = MTLStorageMode.Private then
        MemoryHeap.Private
      else
        MemoryHeap.Public memory_type
    { heap := heap, size := size }

/-- Translation of the per-range body of `invalidate_mapped_memory_ranges`
(device.rs lines 1206-1220), counting the synchronization requests: a
native-heap backing is `unimplemented!()` and a private backing panics
(both `none`); a public backing issues one `synchronize_resource` call
unless its memory type is exactly the shared-coherent one
(`1 << mt.0 != MemoryTypes::SHARED.bits()`, with the shift wrapping at
the `usize` width). -/
def invalidate_sync_count (items : List MemoryHeap) : Option Nat :=
  items.foldlM
    (fun (num_syncs : Nat) item =>
      match item with
      | .Native => none
      | .Public mt =>
        if (2 ^ mt) % 2 ^ 64 ≠ MemoryTypes.SHARED_bits then
          some (num_syncs + 1)
        else
          some num_syncs
      | .Private => none)
    0

/-- Translation of `invalidate_mapped_memory_ranges` (device.rs lines
1188-1233) restricted to its observable synchronization behaviour: the
number of `synchronize_resource` calls issued and whether the
commit-and-wait step ran (`num_syncs != 0`).  The resolved byte ranges
are only used for debug logging in the source and are omitted. -/
def invalidate_mapped_memory_ranges (items : List MemoryHeap) :
    Option (Nat × Bool) :=
  (invalidate_sync_count items).map fun num_syncs =>
    (num_syncs, num_syncs != 0)

/-! ### metal `device.rs`: buffer requirements -/

/-- Buffer usage flags queried by `get_buffer_requirements`
(`UNIFORM_TEXEL` and `STORAGE_TEXEL`; the remaining usage bits are never
read there). -/
structure BufferUsage where
  uniform_texel : Bool
  storage_texel : Bool
  deriving DecidableEq, Repr

/-- An `n::UnboundBuffer` (requested size plus usage). -/
structure UnboundBuffer where
  size : Nat
  usage : BufferUsage
  deriving DecidableEq, Repr

/-- A `memory::Requirements` record. -/
structure Requirements where
  size : Nat
  alignment : Nat
  type_mask : Nat
  deriving DecidableEq, Repr

/-- Computation of `(max_size + SIZE_MASK) & !SIZE_MASK` at `u64` with `SIZE_MASK =
0xFF`: a wrapping add of 255 followed by clearing the low 8 bits (which
is subtracting the value's remainder mod 256). -/
def mask_align_256 (x : Nat) : Nat :=
  (x + 255) % 2 ^ 64 - ((x + 255) % 2 ^ 64) % 256

/-- Translation of `get_buffer_requirements` (device.rs lines 1461-1497).
The native sizing query `heap_buffer_size_and_align(size, options)` is a
device behaviour and enters as the parameter `heap_probe`, indexed by the
requested size and the `(storage, cache)` pair its resource options are
derived from.  On heap-capable devices all four memory types are probed
and the maxima taken; `MemoryTypes::describe` cannot fail on `0..4` but
its panic is propagated as `none` for faithfulness. -/
def get_buffer_requirements (caps : PrivateCapabilities)
    (heap_probe : Nat → MTLStorageMode → MTLCPUCacheMode → Nat × Nat)
    (buffer : UnboundBuffer) : Option Requirements := do
  let init : Nat × Nat := (buffer.size, caps.buffer_alignment)
  let maxes ←
    if caps.resource_heaps then
      (List.range 4).foldlM
        (fun (acc : Nat × Nat) i => do
          let (storage, cache) ← MemoryTypes.describe i
          let requirements := heap_probe buffer.size storage cache
          pure (max acc.1 requirements.1, max acc.2 requirements.2))
        init
    else
      pure init
  let supports_texel_view :=
    buffer.usage.uniform_texel || buffer.usage.storage_texel
  pure { size := mask_align_256 maxes.1
         alignment := maxes.2
         type_mask :=
           if supports_texel_view && !caps.shared_textures then
             MemoryTypes.all_bits ^^^ MemoryTypes.SHARED_bits
           else
             MemoryTypes.all_bits }

/-! ### metal `device.rs`: fence wait and descriptor copy -/

/-- Translation of the polling loop of `wait_for_fence` (device.rs lines
1869-1883) with its fixed `tick = 1` millisecond.  The values read from
the fence's lock-protected boolean are abstracted as the observation
sequence `observe`, indexed by the poll number; the argument is the
remaining timeout in milliseconds. -/
def wait_for_fence_from (observe : Nat → Bool) :
    Nat → Nat → Bool
  | poll, 0 => if observe poll then true else false
  | poll, timeout_ms + 1 =>
    if observe poll then true
    else wait_for_fence_from observe (poll + 1) timeout_ms

/-- The entry point `wait_for_fence` starts polling with the full
timeout. -/
def wait_for_fence (observe : Nat → Bool) (timeout_ms : Nat) : Bool :=
  wait_for_fence_from observe 0 timeout_ms

/-- Translation of `copy_descriptor_sets` (device.rs lines 1387-1395):
`for _copy in copies { unimplemented!() }`.  The `unimplemented!()` panic
is modelled as `none`; an empty iterator never enters the loop body. -/
def copy_descriptor_sets {α : Type} (copies : List α) : Option Unit :=
  copies.foldlM (fun _ _ => (none : Option Unit)) ()

/-! ### Invariants used by the verification -/

/-- Invariant of the layout compiler's walk: every override outside the
push-constants pseudo descriptor set whose buffer slot is actually
assigned (not the `!0` sentinel) lies strictly below the current buffer
counter of its stage. -/
def PLInv (st : PLState) : Prop :=
  ∀ p ∈ st.res_overrides,
    p.1.desc_set ≠ PUSH_CONSTANTS_DESC_SET →
    p.2.buffer_id ≠ U32_MAX →
    p.2.buffer_id < (st.counters.get p.1.stage).buffers

/-- Step relation of the layout compiler: buffer counters never decrease
and the invariant is preserved. -/
def PLStep (st st' : PLState) : Prop :=
  (∀ t, (st.counters.get t).buffers ≤ (st'.counters.get t).buffers) ∧
  (PLInv st → PLInv st')

/-- Invariant of the vertex-attribute remapping loop, relative to the
starting buffer index: the counter equals the start plus the map size,
map keys are distinct, every recorded assignment agrees with the map,
and every map entry was recorded as an assignment. -/
def RemapInv (start : Nat) (st : RemapState) : Prop :=
  st.next_buffer_index = start + st.vertex_buffer_map.length ∧
  (st.vertex_buffer_map.map Prod.fst).Nodup ∧
  (∀ k i, (k, i) ∈ st.assignments →
    ∃ vb, alistLookup st.vertex_buffer_map k = some vb ∧ vb.binding = i) ∧
  (∀ p ∈ st.vertex_buffer_map, (p.1, p.2.binding) ∈ st.assignments)

/-- A fixed minimal-tier device: supports no optional feature set and no
d24s8 format. -/
def minimal_device : MetalDevice :=
  { supports_feature_set := fun _ => false, d24_s8_supported := false }

/-- A fixed heap-capable device: an iOS-class device supporting the first
resource-heap feature set. -/
def ios_heap_device : MetalDevice :=
  { supports_feature_set := fun fs => fs == .iOS_GPUFamily1_v3
    d24_s8_supported := false }

/-- The maximum of the requested buffer size and the per-memory-type
sizing-probe results, as described by claim C9: on heap-capable devices
all four memory types are probed, otherwise only the request counts. -/
def requested_and_probed_max (caps : PrivateCapabilities)
    (heap_probe : Nat → MTLStorageMode → MTLCPUCacheMode → Nat × Nat)
    (buffer : UnboundBuffer) : Nat :=
  if caps.resource_heaps then
    max (max (max (max buffer.size
      (heap_probe buffer.size .Private .DefaultCache).1)
      (heap_probe buffer.size .Shared .DefaultCache).1)
      (heap_probe buffer.size .Managed .WriteCombined).1)
      (heap_probe buffer.size .Managed .DefaultCache).1
  else
    buffer.size

/-! ## Helper lemmas -/

theorem alistLookup_cons {κ ν : Type} [DecidableEq κ] (k' : κ) (v : ν)
    (m : List (κ × ν)) (k : κ) :
    alistLookup ((k', v) :: m) k =
      if k' = k then some v else alistLookup m k := by
  by_cases h : k' = k <;> simp [alistLookup, List.find?_cons, h]

theorem alistLookup_none_not_mem {κ ν : Type} [DecidableEq κ]
    {m : List (κ × ν)} {k : κ} (h : alistLookup m k = none) :
    k ∉ m.map Prod.fst := by
  induction m with
  | nil => simp
  | cons p m ih =>
    rw [show p = (p.1, p.2) from rfl, alistLookup_cons] at h
    by_cases hk : p.1 = k
    · simp [hk] at h
    · simp only [List.map_cons, List.mem_cons]
      rintro (rfl | hmem)
      · exact hk rfl
      · exact ih (by simpa [hk] using h) hmem

theorem alistLookup_some_mem_keys {κ ν : Type} [DecidableEq κ]
    {m : List (κ × ν)} {k : κ} {v : ν} (h : alistLookup m k = some v) :
    k ∈ m.map Prod.fst := by
  unfold alistLookup at h
  rcases hfind : m.find? (fun p => decide (p.1 = k)) with _ | p
  · rw [hfind] at h; exact Option.noConfusion h
  · have hp := List.find?_some hfind
    have hmem := List.mem_of_find?_eq_some hfind
    simp only [decide_eq_true_eq] at hp
    exact hp ▸ List.mem_map_of_mem Prod.fst hmem

theorem foldlM_option_rel {σ α : Type} (f : σ → α → Option σ)
    (R : σ → σ → Prop) (hrefl : ∀ st, R st st)
    (htrans : ∀ a b c, R a b → R b c → R a c)
    (hf : ∀ st a st', f st a = some st' → R st st') :
    ∀ (l : List α) (st st' : σ), l.foldlM f st = some st' → R st st' := by
  intro l
  induction l with
  | nil =>
    intro st st' h
    simp only [List.foldlM_nil, pure, Option.some.injEq] at h
    exact h ▸ hrefl st
  | cons a l ih =>
    intro st st' h
    simp only [List.foldlM_cons] at h
    rcases Option.bind_eq_some.mp h with ⟨st1, h1, h2⟩
    exact htrans _ _ _ (hf st a st1 h1) (ih st1 st' h2)

theorem StageCounters.get_set (sc : StageCounters) (s : Stage) (c : Counters)
    (t : Stage) :
    (sc.set s c).get t = if s = t then c else sc.get t := by
  cases s <;> cases t <;> rfl

theorem PLStep.rfl (st : PLState) : PLStep st st :=
  ⟨fun _ => Nat.le_refl _, id⟩

theorem PLStep.trans {a b c : PLState} (h1 : PLStep a b) (h2 : PLStep b c) :
    PLStep a c :=
  ⟨fun t => Nat.le_trans (h1.1 t) (h2.1 t), fun hi => h2.2 (h1.2 hi)⟩

theorem PLStep.insert (st : PLState) (s : Stage) (c' : Counters)
    (loc : ResourceBindingLocation) (res : ResourceBinding)
    (hbuf : (st.counters.get s).buffers ≤ c'.buffers)
    (hres : loc.desc_set ≠ PUSH_CONSTANTS_DESC_SET → res.buffer_id ≠ U32_MAX →
      res.buffer_id <
        ((if s = loc.stage then c' else st.counters.get loc.stage)).buffers) :
    PLStep st
      { counters := st.counters.set s c'
        res_overrides := (loc, res) :: st.res_overrides } := by
  constructor
  · intro t
    rw [StageCounters.get_set]
    split
    · next he => exact he ▸ hbuf
    · exact Nat.le_refl _
  · intro hinv p hp hds hbid
    simp only [StageCounters.get_set]
    rcases List.mem_cons.mp hp with rfl | hp
    · exact hres hds hbid
    · have hold := hinv p hp hds hbid
      split
      · next he => exact Nat.lt_of_lt_of_le hold (he ▸ hbuf)
      · exact hold

theorem process_binding_stage_step (i : Nat)
    (b : DescriptorSetLayoutBinding) (st : PLState) (s : Stage)
    (st' : PLState) (h : process_binding_stage i b st s = some st') :
    PLStep st st' := by
  unfold process_binding_stage at h
  by_cases hc : b.stage_flags.containsStage s
  · simp only [hc, Bool.not_true, Bool.false_eq_true, if_false] at h
    cases hty : b.ty <;> simp only [hty] at h <;>
      first
      | exact Option.noConfusion h
      | · by_cases hcount : b.count = 1
          · simp only [hcount, if_true, Option.some.injEq] at h
            subst h
            refine PLStep.insert st s _ _ _ ?_ ?_
            · simp
            · intro _ hbid
              first
              | exact absurd rfl hbid
              | · simp only [if_pos rfl]
                  exact Nat.lt_succ_of_le (Nat.mod_le _ _)
          · simp [hcount] at h
  · simp only [hc, Bool.not_false, if_true, Option.some.injEq] at h
    exact h ▸ PLStep.rfl st

theorem process_set_layout_step (st : PLState)
    (isl : Nat × DescriptorSetLayout) (st' : PLState)
    (h : process_set_layout st isl = some st') : PLStep st st' := by
  rcases isl with ⟨i, sl⟩
  cases sl with
  | Emulated set_bindings =>
    refine foldlM_option_rel _ PLStep PLStep.rfl
      (fun _ _ _ => PLStep.trans) ?_ set_bindings st st' h
    intro st b st' hb
    exact foldlM_option_rel _ PLStep PLStep.rfl (fun _ _ _ => PLStep.trans)
      (process_binding_stage_step i b) stage_order st st' hb
  | ArgumentBuffer args stage_flags =>
    unfold process_set_layout at h
    refine foldlM_option_rel _ PLStep PLStep.rfl
      (fun _ _ _ => PLStep.trans) ?_ stage_order st st' h
    intro st s st' hs
    by_cases hc : stage_flags.containsStage s
    · simp only [hc, Bool.not_true, Bool.false_eq_true, if_false,
        Option.some.injEq] at hs
      subst hs
      refine PLStep.insert st s _ _ _ (Nat.le_succ _) ?_
      intro _ hbid
      simp only [if_pos rfl]
      exact Nat.lt_succ_of_le (Nat.mod_le _ _)
    · simp only [hc, Bool.not_false, if_true, Option.some.injEq] at hs
      exact hs ▸ PLStep.rfl st

theorem finish_stage_spec (caps : PrivateCapabilities) (pcid : Nat)
    (limit : Nat) (s : Stage) (st st' : PLState)
    (h : finish_stage caps pcid limit s st = some st') :
    st'.counters = st.counters ∧
    (limit = 0 → st'.res_overrides = st.res_overrides) ∧
    (limit ≠ 0 → (st.counters.get s).buffers < pcid ∧
      st'.res_overrides =
        ({ stage := s, desc_set := PUSH_CONSTANTS_DESC_SET,
           binding := PUSH_CONSTANTS_DESC_BINDING },
         { buffer_id := pcid, texture_id := U32_MAX, sampler_id := U32_MAX,
           force_used := false }) :: st.res_overrides) := by
  unfold finish_stage at h
  by_cases hl : limit = 0
  · simp only [hl, ne_eq, not_true_eq_false, if_false] at h
    by_cases hb : (st.counters.get s).buffers ≤ caps.max_buffers_per_stage
    · simp only [hb, if_true] at h
      split at h
      · split at h
        · cases h
          exact ⟨rfl, fun _ => rfl, fun hne => absurd hl hne⟩
        · exact Option.noConfusion h
      · exact Option.noConfusion h
    · simp [hb] at h
  · simp only [hl, ne_eq, not_false_eq_true, if_true] at h
    by_cases hb : (st.counters.get s).buffers < pcid
    · simp only [hb, if_true] at h
      split at h
      · split at h
        · cases h
          exact ⟨rfl, fun he => absurd he hl, fun _ => ⟨hb, rfl⟩⟩
        · exact Option.noConfusion h
      · exact Option.noConfusion h
    · simp [hb] at h

theorem finish_stage_step (caps : PrivateCapabilities) (pcid : Nat)
    (limit : Nat) (s : Stage) (st st' : PLState)
    (h : finish_stage caps pcid limit s st = some st') : PLStep st st' := by
  obtain ⟨hcnt, hz, hnz⟩ := finish_stage_spec caps pcid limit s st st' h
  constructor
  · intro t; rw [hcnt]
  · intro hinv p hp hds hbid
    rw [hcnt]
    by_cases hl : limit = 0
    · rw [hz hl] at hp
      exact hinv p hp hds hbid
    · rcases hnz hl with ⟨_, hov⟩
      rw [hov] at hp
      rcases List.mem_cons.mp hp with rfl | hp
      · exact absurd rfl hds
      · exact hinv p hp hds hbid

theorem finish_stage_lookup_of_ne (caps : PrivateCapabilities) (pcid : Nat)
    (limit : Nat) (t : Stage) (st st' : PLState)
    (h : finish_stage caps pcid limit t st = some st')
    (loc : ResourceBindingLocation) (hne : loc.stage ≠ t) :
    alistLookup st'.res_overrides loc = alistLookup st.res_overrides loc := by
  obtain ⟨_, hz, hnz⟩ := finish_stage_spec caps pcid limit t st st' h
  by_cases hl : limit = 0
  · rw [hz hl]
  · rcases hnz hl with ⟨_, hov⟩
    rw [hov, alistLookup_cons, if_neg]
    intro he
    exact hne (by rw [← he])

theorem finish_stage_lookup_self (caps : PrivateCapabilities) (pcid : Nat)
    (limit : Nat) (s : Stage) (st st' : PLState)
    (h : finish_stage caps pcid limit s st = some st') (hl : limit ≠ 0) :
    alistLookup st'.res_overrides
        { stage := s, desc_set := PUSH_CONSTANTS_DESC_SET,
          binding := PUSH_CONSTANTS_DESC_BINDING } =
      some { buffer_id := pcid, texture_id := U32_MAX, sampler_id := U32_MAX,
             force_used := false } := by
  rcases (finish_stage_spec caps pcid limit s st st' h).2.2 hl with ⟨_, hov⟩
  rw [hov, alistLookup_cons, if_pos rfl]

theorem pc_limit_foldl_le (s : Stage) :
    ∀ (l : List PushConstantRange) (acc : Nat),
      acc ≤ l.foldl (fun limit pcr =>
        if pcr.stage_flags.containsStage s then max pcr.stop limit
        else limit) acc := by
  intro l
  induction l with
  | nil => intro acc; exact Nat.le_refl _
  | cons a l ih =>
    intro acc
    refine Nat.le_trans ?_ (ih _)
    by_cases hc : a.stage_flags.containsStage s
    · simp only [hc, if_true]
      exact Nat.le_max_right _ _
    · simp [hc]

theorem stop_le_pc_limit (s : Stage) (pcr : PushConstantRange) :
    ∀ (l : List PushConstantRange) (acc : Nat), pcr ∈ l →
      pcr.stage_flags.containsStage s = true →
      pcr.stop ≤ l.foldl (fun limit p =>
        if p.stage_flags.containsStage s then max p.stop limit
        else limit) acc := by
  intro l
  induction l with
  | nil => intro acc hmem; cases hmem
  | cons a l ih =>
    intro acc hmem hc
    rcases List.mem_cons.mp hmem with rfl | hmem
    · refine Nat.le_trans ?_ (pc_limit_foldl_le s l _)
      simp only [hc, if_true]
      exact Nat.le_max_left _ _
    · exact ih _ hmem hc

theorem pc_limit_ne_zero (push_constant_ranges : List PushConstantRange)
    (s : Stage) (pcr : PushConstantRange) (hmem : pcr ∈ push_constant_ranges)
    (hc : pcr.stage_flags.containsStage s = true)
    (hlen : pcr.start < pcr.stop) : pc_limit push_constant_ranges s ≠ 0 := by
  have h1 : pcr.stop ≤ pc_limit push_constant_ranges s :=
    stop_le_pc_limit s pcr push_constant_ranges 0 hmem hc
  have h2 : 0 < pcr.stop := Nat.lt_of_le_of_lt (Nat.zero_le _) hlen
  omega

/-! ## Claim theorems -/

/-- Claim C1: for every pipeline layout compiled by
`create_pipeline_layout`, and for every stage with a push-constant range
of nonzero length, the reserved push-constant buffer slot recorded for
that stage (the override at the push-constants pseudo descriptor set) is
the fixed `push_constants_buffer_id` and is strictly greater than every
regular buffer-slot index assigned to that stage. -/
theorem pipeline_layout_push_constant_slot (caps : PrivateCapabilities)
    (push_constants_buffer_id : Nat)
    (set_layouts : List DescriptorSetLayout)
    (push_constant_ranges : List PushConstantRange)
    (layout : PipelineLayout) (s : Stage) (pcr : PushConstantRange)
    (h : create_pipeline_layout caps push_constants_buffer_id set_layouts
      push_constant_ranges = some layout)
    (hmem : pcr ∈ push_constant_ranges)
    (hs : pcr.stage_flags.containsStage s = true)
    (hlen : pcr.start < pcr.stop) :
    alistLookup layout.res_overrides
        { stage := s, desc_set := PUSH_CONSTANTS_DESC_SET,
          binding := PUSH_CONSTANTS_DESC_BINDING } =
      some { buffer_id := push_constants_buffer_id, texture_id := U32_MAX,
             sampler_id := U32_MAX, force_used := false } ∧
    ∀ p ∈ layout.res_overrides, p.1.stage = s →
      p.1.desc_set ≠ PUSH_CONSTANTS_DESC_SET → p.2.buffer_id ≠ U32_MAX →
      p.2.buffer_id < push_constants_buffer_id := by
  have hlim : pc_limit push_constant_ranges s ≠ 0 :=
    pc_limit_ne_zero push_constant_ranges s pcr hmem hs hlen
  unfold create_pipeline_layout at h
  rcases Option.bind_eq_some.mp h with ⟨st1, h1, h⟩
  rcases Option.bind_eq_some.mp h with ⟨st2, h2, h⟩
  rcases Option.bind_eq_some.mp h with ⟨st3, h3, h⟩
  rcases Option.bind_eq_some.mp h with ⟨st4, h4, h⟩
  have hlay := Option.some.inj h
  have hinit : PLInv
      { counters :=
          { vertex := ⟨0, 0, 0⟩, fragment := ⟨0, 0, 0⟩
            compute := ⟨0, 0, 0⟩ }
        res_overrides := [] } := by
    intro p hp
    cases hp
  have hinv1 : PLInv st1 :=
    (foldlM_option_rel process_set_layout PLStep PLStep.rfl
      (fun _ _ _ => PLStep.trans) process_set_layout_step
      set_layouts.enum _ st1 h1).2 hinit
  have s2 := finish_stage_spec _ _ _ _ _ _ h2
  have s3 := finish_stage_spec _ _ _ _ _ _ h3
  have s4 := finish_stage_spec _ _ _ _ _ _ h4
  have hinv4 : PLInv st4 :=
    (PLStep.trans (PLStep.trans (finish_stage_step _ _ _ _ _ _ h2)
      (finish_stage_step _ _ _ _ _ _ h3))
      (finish_stage_step _ _ _ _ _ _ h4)).2 hinv1
  have hc2 : st2.counters = st1.counters := s2.1
  have hc3 : st3.counters = st2.counters := s3.1
  have hc4 : st4.counters = st3.counters := s4.1
  have hbound : (st1.counters.get s).buffers < push_constants_buffer_id := by
    cases s with
    | vertex => exact (s2.2.2 hlim).1
    | fragment =>
      have := (s3.2.2 hlim).1
      rwa [hc2] at this
    | compute =>
      have := (s4.2.2 hlim).1
      rwa [hc3, hc2] at this
  have hov : layout.res_overrides = st4.res_overrides := by
    rw [← hlay]
  constructor
  · rw [hov]
    cases s with
    | vertex =>
      rw [finish_stage_lookup_of_ne _ _ _ _ _ _ h4 _ (by intro he; cases he),
          finish_stage_lookup_of_ne _ _ _ _ _ _ h3 _ (by intro he; cases he)]
      exact finish_stage_lookup_self _ _ _ _ _ _ h2 hlim
    | fragment =>
      rw [finish_stage_lookup_of_ne _ _ _ _ _ _ h4 _ (by intro he; cases he)]
      exact finish_stage_lookup_self _ _ _ _ _ _ h3 hlim
    | compute =>
      exact finish_stage_lookup_self _ _ _ _ _ _ h4 hlim
  · intro p hp hstage hds hbid
    rw [hov] at hp
    have hlt := hinv4 p hp hds hbid
    rw [hc4, hc3, hc2, hstage] at hlt
    exact Nat.lt_trans hlt hbound

/-- Witness for C1: a layout with one vertex uniform-buffer binding and a
vertex push-constant range `0..4`, compiled against the minimal device
capabilities with reserved push-constant slot 30. -/
theorem pipeline_layout_push_constant_slot_witness :
    alistLookup
        (PipelineLayout.mk 1
          [({ stage := .vertex, desc_set := PUSH_CONSTANTS_DESC_SET,
              binding := PUSH_CONSTANTS_DESC_BINDING },
            { buffer_id := 30, texture_id := U32_MAX, sampler_id := U32_MAX,
              force_used := false }),
           ({ stage := .vertex, desc_set := 0, binding := 0 },
            { buffer_id := 0, texture_id := U32_MAX, sampler_id := U32_MAX,
              force_used := false })]).res_overrides
        { stage := .vertex, desc_set := PUSH_CONSTANTS_DESC_SET,
          binding := PUSH_CONSTANTS_DESC_BINDING } =
      some { buffer_id := 30, texture_id := U32_MAX, sampler_id := U32_MAX,
             force_used := false } ∧
    ∀ p ∈ (PipelineLayout.mk 1
          [({ stage := .vertex, desc_set := PUSH_CONSTANTS_DESC_SET,
              binding := PUSH_CONSTANTS_DESC_BINDING },
            { buffer_id := 30, texture_id := U32_MAX, sampler_id := U32_MAX,
              force_used := false }),
           ({ stage := .vertex, desc_set := 0, binding := 0 },
            { buffer_id := 0, texture_id := U32_MAX, sampler_id := U32_MAX,
              force_used := false })]).res_overrides,
      p.1.stage = .vertex → p.1.desc_set ≠ PUSH_CONSTANTS_DESC_SET →
      p.2.buffer_id ≠ U32_MAX → p.2.buffer_id < 30 :=
  pipeline_layout_push_constant_slot (probe_private_caps minimal_device) 30
    [.Emulated [{ binding := 0, ty := .UniformBuffer, count := 1
                  stage_flags :=
                    { vertex := true, fragment := false, compute := false } }]]
    [{ stage_flags := { vertex := true, fragment := false, compute := false }
       start := 0, stop := 4 }]
    (PipelineLayout.mk 1
      [({ stage := .vertex, desc_set := PUSH_CONSTANTS_DESC_SET,
          binding := PUSH_CONSTANTS_DESC_BINDING },
        { buffer_id := 30, texture_id := U32_MAX, sampler_id := U32_MAX,
          force_used := false }),
       ({ stage := .vertex, desc_set := 0, binding := 0 },
        { buffer_id := 0, texture_id := U32_MAX, sampler_id := U32_MAX,
          force_used := false })])
    .vertex
    { stage_flags := { vertex := true, fragment := false, compute := false }
      start := 0, stop := 4 }
    (by decide) (by decide) (by decide) (by decide)

/-- Helper for claim C3: every accepted pair's native format determines
the surface layout, except that `D24_UNORM_S8_UINT` is produced by both
`D24` and `D24_S8`. -/
theorem mapFormatSurface_complete :
    ∀ (s : SurfaceType) (c : ChannelType) (d : DXGIFormat),
      map_format s c = some d →
      s = mapFormatSurface d ∨
      (d = .D24_UNORM_S8_UINT ∧ (s = .D24 ∨ s = .D24_S8)) := by decide

/-- Claim C3 (amended): whenever two accepted (surface, channel) pairs
map to the same native format, their surface layouts agree, except for
the alias pair D24 / D24_S8; injectivity in the channel component fails
for depth formats, which ignore the channel type. -/
theorem map_format_unique_up_to_depth_aliases (s1 s2 : SurfaceType)
    (c1 c2 : ChannelType) (d : DXGIFormat)
    (h1 : map_format s1 c1 = some d) (h2 : map_format s2 c2 = some d) :
    s1 = s2 ∨ (s1 = .D24 ∧ s2 = .D24_S8) ∨ (s1 = .D24_S8 ∧ s2 = .D24) := by
  have e1 := mapFormatSurface_complete s1 c1 d h1
  have e2 := mapFormatSurface_complete s2 c2 d h2
  rcases e1 with rfl | ⟨rfl, e1⟩
  · rcases e2 with rfl | ⟨hd, e2⟩
    · exact Or.inl rfl
    · subst hd
      rcases e2 with rfl | rfl
      · exact Or.inl rfl
      · exact Or.inr (Or.inl ⟨rfl, rfl⟩)
  · rcases e2 with rfl | ⟨_, e2⟩
    · rcases e1 with rfl | rfl
      · exact Or.inl rfl
      · exact Or.inr (Or.inr ⟨rfl, rfl⟩)
    · rcases e1 with rfl | rfl <;> rcases e2 with rfl | rfl
      · exact Or.inl rfl
      · exact Or.inr (Or.inl ⟨rfl, rfl⟩)
      · exact Or.inr (Or.inr ⟨rfl, rfl⟩)
      · exact Or.inl rfl

/-- Witness for C3 at the defined alias pair: both D24 and D24_S8 map to
`D24_UNORM_S8_UINT`. -/
theorem map_format_unique_up_to_depth_aliases_witness :
    SurfaceType.D24 = SurfaceType.D24_S8 ∨
    (SurfaceType.D24 = .D24 ∧ SurfaceType.D24_S8 = .D24_S8) ∨
    (SurfaceType.D24 = .D24_S8 ∧ SurfaceType.D24_S8 = .D24) :=
  map_format_unique_up_to_depth_aliases .D24 .D24_S8 .Unorm .Unorm
    .D24_UNORM_S8_UINT (by decide) (by decide)

/-- Counterexample to claim C3 as stated: (D16, Unorm) and (D16, Float)
are two distinct accepted pairs that collide on `D16_UNORM`, and neither
is the D24 / D24_S8 alias pair. -/
theorem map_format_injectivity_counterexample :
    map_format .D16 .Unorm = some .D16_UNORM ∧
    map_format .D16 .Float = some .D16_UNORM ∧
    (SurfaceType.D16, ChannelType.Unorm) ≠
      (SurfaceType.D16, ChannelType.Float) ∧
    SurfaceType.D16 ≠ .D24 ∧ SurfaceType.D16 ≠ .D24_S8 := by decide

/-- Claim C4: a device supporting only the minimal feature tier probes to
`max_buffers_per_stage = 31` and `argument_buffers = false`, and every
descriptor pool request on it returns the emulated variant. -/
theorem probe_minimal_tier_emulated (device : MetalDevice)
    (_h : ∀ fs, device.supports_feature_set fs = false) :
    (probe_private_caps device).max_buffers_per_stage = 31 ∧
    (probe_private_caps device).argument_buffers = false ∧
    ∀ ranges, create_descriptor_pool (probe_private_caps device) ranges =
      some .Emulated := by
  refine ⟨rfl, ?_, ?_⟩
  · simp [probe_private_caps]
  · intro ranges
    simp [create_descriptor_pool, probe_private_caps]

/-- Witness for C4 at the fixed minimal device. -/
theorem probe_minimal_tier_emulated_witness :
    (probe_private_caps minimal_device).max_buffers_per_stage = 31 ∧
    (probe_private_caps minimal_device).argument_buffers = false ∧
    ∀ ranges, create_descriptor_pool (probe_private_caps minimal_device)
      ranges = some .Emulated :=
  probe_minimal_tier_emulated minimal_device (fun _ => rfl)

/-- Claim C10: the probe and-s the argument-buffer feature test with a
constant `false`, so every device probes to `argument_buffers = false`,
every descriptor pool is the emulated variant, and every descriptor set
layout is the emulated representation. -/
theorem argument_buffers_unreachable (device : MetalDevice) :
    (probe_private_caps device).argument_buffers = false ∧
    (∀ ranges, create_descriptor_pool (probe_private_caps device) ranges =
      some .Emulated) ∧
    (∀ bindings,
      create_descriptor_set_layout (probe_private_caps device) bindings =
        some (.Emulated bindings)) := by
  refine ⟨?_, ?_, ?_⟩
  · simp [probe_private_caps]
  · intro ranges
    simp [create_descriptor_pool, probe_private_caps]
  · intro bindings
    simp [create_descriptor_set_layout, probe_private_caps]

/-- Counterexample to claim C2 as stated: on a heap-capable device and
the device-private memory type, the claimed priority order picks a
native heap, but `allocate_memory` (whose heap guard carries a literal
`&& false`) produces a plain device-private allocation. -/
theorem allocate_memory_claim_counterexample :
    (probe_private_caps ios_heap_device).resource_heaps = true ∧
    allocate_memory (probe_private_caps ios_heap_device) 0 64 =
      some { heap := .Private, size := 64 } ∧
    allocate_memory_claimed (probe_private_caps ios_heap_device) 0 64 =
      some { heap := .Native, size := 64 } ∧
    MemoryHeap.Private ≠ MemoryHeap.Native := by decide

/-- Claim C2 (amended): the native-heap strategy is disabled by the
literal `&& false` in its guard, so `allocate_memory` yields a
device-private allocation exactly when the storage mode is Private and a
host-visible (CPU-shared) buffer otherwise; the native-heap backing is
never chosen. -/
theorem allocate_memory_selection (caps : PrivateCapabilities)
    (memory_type size : Nat) (storage : MTLStorageMode)
    (cache : MTLCPUCacheMode)
    (h : MemoryTypes.describe memory_type = some (storage, cache)) :
    allocate_memory caps memory_type size =
      some { heap := if storage = .Private then .Private
                     else .Public memory_type
             size := size } := by
  unfold allocate_memory
  rw [h]
  simp

/-- Witness for C2 (amended) at the shared memory type on a heap-capable
device. -/
theorem allocate_memory_selection_witness :
    allocate_memory (probe_private_caps ios_heap_device) 1 7 =
      some { heap := if MTLStorageMode.Shared = .Private then .Private
                     else .Public 1
             size := 7 } :=
  allocate_memory_selection (probe_private_caps ios_heap_device) 1 7
    .Shared .DefaultCache (by decide)

/-- Claim C6: invalidation with an empty range list issues zero
synchronization requests and skips the blocking commit-and-wait step. -/
theorem invalidate_empty_no_sync_no_block :
    invalidate_mapped_memory_ranges [] = some (0, false) := rfl

/-- Helper for claim C7: the polling loop returns true exactly when one
of the remaining polls observes the flag set. -/
theorem wait_for_fence_from_true_iff (observe : Nat → Bool) :
    ∀ (timeout_ms poll : Nat),
      wait_for_fence_from observe poll timeout_ms = true ↔
        ∃ i, poll ≤ i ∧ i ≤ poll + timeout_ms ∧ observe i = true := by
  intro t
  induction t with
  | zero =>
    intro poll
    unfold wait_for_fence_from
    by_cases h : observe poll = true
    · rw [if_pos h]
      constructor
      · intro _
        exact ⟨poll, Nat.le_refl _, by omega, h⟩
      · intro _
        rfl
    · rw [if_neg h]
      constructor
      · intro hf
        exact absurd hf (by simp)
      · rintro ⟨i, h1, h2, h3⟩
        have hip : i = poll := by omega
        subst hip
        exact absurd h3 h
  | succ t ih =>
    intro poll
    unfold wait_for_fence_from
    by_cases h : observe poll = true
    · rw [if_pos h]
      constructor
      · intro _
        exact ⟨poll, Nat.le_refl _, by omega, h⟩
      · intro _
        rfl
    · rw [if_neg h, ih (poll + 1)]
      constructor
      · rintro ⟨i, h1, h2, h3⟩
        exact ⟨i, by omega, by omega, h3⟩
      · rintro ⟨i, h1, h2, h3⟩
        refine ⟨i, ?_, by omega, h3⟩
        rcases Nat.eq_or_lt_of_le h1 with rfl | hlt
        · exact absurd h3 h
        · omega

/-- Claim C7: for every fence observation sequence and timeout the wait
terminates with a boolean: true exactly when the signaled flag is
observed set at one of the polls within the timeout window, and false
otherwise (once the remaining timeout has dropped below the 1 ms tick
without a successful observation). -/
theorem wait_for_fence_terminates_iff (observe : Nat → Bool)
    (timeout_ms : Nat) :
    wait_for_fence observe timeout_ms = true ↔
      ∃ i, i ≤ timeout_ms ∧ observe i = true := by
  unfold wait_for_fence
  rw [wait_for_fence_from_true_iff]
  constructor
  · rintro ⟨i, _, h2, h3⟩
    exact ⟨i, by omega, h3⟩
  · rintro ⟨i, h1, h3⟩
    exact ⟨i, Nat.zero_le _, by omega, h3⟩

/-- Counterexample to claim C8 as stated: a call with an empty copy list
returns successfully without raising the not-implemented panic. -/
theorem copy_descriptor_sets_empty_succeeds :
    copy_descriptor_sets ([] : List Unit) = some () := rfl

/-- Claim C8 (amended): every call to `copy_descriptor_sets` that
supplies at least one copy operation fails with the explicit
not-implemented panic; only the degenerate empty call returns silently. -/
theorem copy_descriptor_sets_nonempty_fails {α : Type} (copies : List α)
    (h : copies ≠ []) : copy_descriptor_sets copies = none := by
  cases copies with
  | nil => exact absurd rfl h
  | cons a l => rfl

/-- Witness for C8 (amended) at a one-element copy list. -/
theorem copy_descriptor_sets_nonempty_fails_witness :
    copy_descriptor_sets [()] = none :=
  copy_descriptor_sets_nonempty_fails [()] (by simp)

/-- Claim C9 (amended): as long as the 255-rounding addition does not
overflow the `u64` width, the reported buffer requirement size is the
maximum of the requested size and the per-memory-type probe results,
rounded up to the next multiple of 256; in particular it is a multiple
of 256 and at least the requested size.  (The unamended claim fails at
requested sizes within 255 bytes of `2^64`, where the wrapping add makes
the reported size smaller than the request.) -/
theorem get_buffer_requirements_size (caps : PrivateCapabilities)
    (heap_probe : Nat → MTLStorageMode → MTLCPUCacheMode → Nat × Nat)
    (buffer : UnboundBuffer)
    (h : requested_and_probed_max caps heap_probe buffer + 255 < 2 ^ 64) :
    ∃ r, get_buffer_requirements caps heap_probe buffer = some r ∧
      r.size = (requested_and_probed_max caps heap_probe buffer + 255) /
        256 * 256 ∧
      r.size % 256 = 0 ∧
      buffer.size ≤ r.size ∧
      requested_and_probed_max caps heap_probe buffer ≤ r.size := by
  have hsz : buffer.size ≤ requested_and_probed_max caps heap_probe buffer := by
    unfold requested_and_probed_max
    split
    · refine Nat.le_trans ?_ (Nat.le_max_left _ _)
      refine Nat.le_trans ?_ (Nat.le_max_left _ _)
      refine Nat.le_trans ?_ (Nat.le_max_left _ _)
      exact Nat.le_max_left _ _
    · exact Nat.le_refl _
  have hmask : mask_align_256 (requested_and_probed_max caps heap_probe buffer)
      = (requested_and_probed_max caps heap_probe buffer + 255) / 256 * 256 := by
    unfold mask_align_256
    rw [Nat.mod_eq_of_lt h]
    omega
  have hmain : get_buffer_requirements caps heap_probe buffer =
      some { size :=
               mask_align_256 (requested_and_probed_max caps heap_probe buffer)
             alignment :=
               (if caps.resource_heaps then
                  max (max (max (max caps.buffer_alignment
                    (heap_probe buffer.size .Private .DefaultCache).2)
                    (heap_probe buffer.size .Shared .DefaultCache).2)
                    (heap_probe buffer.size .Managed .WriteCombined).2)
                    (heap_probe buffer.size .Managed .DefaultCache).2
                else caps.buffer_alignment)
             type_mask :=
               if (buffer.usage.uniform_texel || buffer.usage.storage_texel)
                   && !caps.shared_textures then
                 MemoryTypes.all_bits ^^^ MemoryTypes.SHARED_bits
               else
                 MemoryTypes.all_bits } := by
    unfold get_buffer_requirements requested_and_probed_max
    by_cases hh : caps.resource_heaps
    · simp only [hh, if_true]
      rfl
    · simp only [hh, Bool.false_eq_true, if_false]
      rfl
  refine ⟨_, hmain, ?_, ?_, ?_, ?_⟩
  · exact hmask
  · show mask_align_256 (requested_and_probed_max caps heap_probe buffer) %
      256 = 0
    rw [hmask]
    omega
  · show buffer.size ≤
      mask_align_256 (requested_and_probed_max caps heap_probe buffer)
    rw [hmask]
    omega
  · show requested_and_probed_max caps heap_probe buffer ≤
      mask_align_256 (requested_and_probed_max caps heap_probe buffer)
    rw [hmask]
    omega

/-- Witness for C9 (amended): a 100-byte buffer on a non-heap device
reports a 256-byte requirement. -/
theorem get_buffer_requirements_size_witness :
    ∃ r, get_buffer_requirements (probe_private_caps minimal_device)
        (fun _ _ _ => (0, 0))
        { size := 100
          usage := { uniform_texel := false, storage_texel := false } } =
        some r ∧
      r.size = (requested_and_probed_max (probe_private_caps minimal_device)
        (fun _ _ _ => (0, 0))
        { size := 100
          usage := { uniform_texel := false, storage_texel := false } } + 255)
        / 256 * 256 ∧
      r.size % 256 = 0 ∧
      (100 : Nat) ≤ r.size ∧
      requested_and_probed_max (probe_private_caps minimal_device)
        (fun _ _ _ => (0, 0))
        { size := 100
          usage := { uniform_texel := false, storage_texel := false } } ≤
        r.size :=
  get_buffer_requirements_size (probe_private_caps minimal_device)
    (fun _ _ _ => (0, 0))
    { size := 100, usage := { uniform_texel := false, storage_texel := false } }
    (by decide)

/-- Counterexample to claim C9 as stated: a buffer requesting `2^64 - 1`
bytes is reported as needing 0 bytes (a multiple of 256, but far below
the requested size), because the `+ 255` wraps at the `u64` width. -/
theorem get_buffer_requirements_overflow_counterexample :
    get_buffer_requirements (probe_private_caps minimal_device)
        (fun _ _ _ => (0, 0))
        { size := 2 ^ 64 - 1
          usage := { uniform_texel := false, storage_texel := false } } =
      some { size := 0, alignment := 64, type_mask := 15 } ∧
    (0 : Nat) < 2 ^ 64 - 1 := by
  constructor
  · rfl
  · decide

theorem remap_attribute_inv (start push_constants_buffer_id : Nat)
    (vertex_buffers : List VertexBufferDesc) (st : RemapState)
    (attr : AttributeDesc) (st' : RemapState)
    (h : remap_attribute push_constants_buffer_id vertex_buffers st attr =
      some st')
    (hinv : RemapInv start st) : RemapInv start st' := by
  obtain ⟨hnext, hnodup, hagree, hback⟩ := hinv
  unfold remap_attribute at h
  rcases Option.bind_eq_some.mp h with ⟨original, hf, h⟩
  rcases Option.bind_eq_some.mp h with ⟨base_offset, hbo, h⟩
  rcases hl : alistLookup st.vertex_buffer_map (attr.binding, base_offset)
    with _ | vb
  · rw [hl] at h
    by_cases hexh : st.next_buffer_index = push_constants_buffer_id
    · rw [if_pos hexh] at h
      exact Option.noConfusion h
    · rw [if_neg hexh] at h
      cases Option.some.inj h
      refine ⟨?_, ?_, ?_, ?_⟩
      · simp only [List.length_cons, hnext]
        omega
      · simp only [List.map_cons, List.nodup_cons]
        exact ⟨alistLookup_none_not_mem hl, hnodup⟩
      · intro k i hk
        rcases List.mem_append.mp hk with hk | hk
        · rcases hagree k i hk with ⟨vb', hl', hb'⟩
          refine ⟨vb', ?_, hb'⟩
          rw [alistLookup_cons, if_neg, hl']
          intro he
          rw [he] at hl
          rw [hl] at hl'
          exact Option.noConfusion hl'
        · rcases List.mem_singleton.mp hk with he
          cases he
          exact ⟨{ binding := st.next_buffer_index, stride := original.stride
                   rate := original.rate },
                 by rw [alistLookup_cons, if_pos rfl], rfl⟩
      · intro p hp
        rcases List.mem_cons.mp hp with rfl | hp
        · exact List.mem_append.mpr (Or.inr (List.mem_singleton.mpr rfl))
        · exact List.mem_append.mpr (Or.inl (hback p hp))
  · rw [hl] at h
    cases Option.some.inj h
    refine ⟨hnext, hnodup, ?_, ?_⟩
    · intro k i hk
      rcases List.mem_append.mp hk with hk | hk
      · exact hagree k i hk
      · rcases List.mem_singleton.mp hk with he
        cases he
        exact ⟨vb, hl, rfl⟩
    · intro p hp
      exact List.mem_append.mpr (Or.inl (hback p hp))

theorem vertex_attribute_remap_inv (push_constants_buffer_id : Nat)
    (vertex_buffers : List VertexBufferDesc)
    (attributes : List AttributeDesc) (start_index : Nat) (st : RemapState)
    (h : vertex_attribute_remap push_constants_buffer_id vertex_buffers
      attributes start_index = some st) : RemapInv start_index st := by
  have hinit : RemapInv start_index
      { vertex_buffer_map := [], next_buffer_index := start_index
        assignments := [] } := by
    refine ⟨rfl, List.nodup_nil, ?_, ?_⟩
    · intro k i hk
      cases hk
    · intro p hp
      cases hp
  exact (foldlM_option_rel _ (fun a b => RemapInv start_index a →
      RemapInv start_index b) (fun _ hi => hi) (fun _ _ _ h1 h2 hi => h2 (h1 hi))
      (fun st a st' hstep hi =>
        remap_attribute_inv start_index push_constants_buffer_id
          vertex_buffers st a st' hstep hi)
      attributes _ st h) hinit

/-- Claim C5: the vertex-attribute remapping of
`create_graphics_pipeline` is idempotent in its `(binding, base_offset)`
map key: attributes resolving to the same key receive the same
synthesized buffer index, and the `next_buffer_index` counter advances
exactly once per distinct key (hence at most once per pair). -/
theorem vertex_attribute_remap_idempotent (push_constants_buffer_id : Nat)
    (vertex_buffers : List VertexBufferDesc)
    (attributes : List AttributeDesc) (start_index : Nat) (st : RemapState)
    (h : vertex_attribute_remap push_constants_buffer_id vertex_buffers
      attributes start_index = some st) :
    (∀ k i1 i2, (k, i1) ∈ st.assignments → (k, i2) ∈ st.assignments →
      i1 = i2) ∧
    st.next_buffer_index =
      start_index + (st.assignments.map Prod.fst).toFinset.card := by
  obtain ⟨hnext, hnodup, hagree, hback⟩ :=
    vertex_attribute_remap_inv push_constants_buffer_id vertex_buffers
      attributes start_index st h
  constructor
  · intro k i1 i2 h1 h2
    rcases hagree k i1 h1 with ⟨vb1, hl1, hb1⟩
    rcases hagree k i2 h2 with ⟨vb2, hl2, hb2⟩
    rw [hl1] at hl2
    cases Option.some.inj hl2
    rw [← hb1, ← hb2]
  · have hfin : (st.assignments.map Prod.fst).toFinset =
        (st.vertex_buffer_map.map Prod.fst).toFinset := by
      ext k
      simp only [List.mem_toFinset]
      constructor
      · intro hk
        rcases List.mem_map.mp hk with ⟨⟨k', i⟩, hmem, rfl⟩
        rcases hagree k' i hmem with ⟨vb, hl, _⟩
        exact alistLookup_some_mem_keys hl
      · intro hk
        rcases List.mem_map.mp hk with ⟨p, hmem, rfl⟩
        exact List.mem_map.mpr ⟨(p.1, p.2.binding), hback p hmem, rfl⟩
    rw [hfin, List.toFinset_card_of_nodup hnodup, List.length_map]
    exact hnext

/-- Witness for C5: two attributes of the same binding whose offsets both
reduce to base offset 8 share the synthesized buffer index 1, and the
counter advanced only once (from 1 to 2). -/
theorem vertex_attribute_remap_idempotent_witness :
    (∀ k i1 i2,
      (k, i1) ∈ (RemapState.mk [((0, 8), ⟨1, 8, 0⟩)] 2
        [((0, 8), 1), ((0, 8), 1)]).assignments →
      (k, i2) ∈ (RemapState.mk [((0, 8), ⟨1, 8, 0⟩)] 2
        [((0, 8), 1), ((0, 8), 1)]).assignments → i1 = i2) ∧
    (RemapState.mk [((0, 8), ⟨1, 8, 0⟩)] 2
        [((0, 8), 1), ((0, 8), 1)]).next_buffer_index =
      1 + ((RemapState.mk [((0, 8), ⟨1, 8, 0⟩)] 2
        [((0, 8), 1), ((0, 8), 1)]).assignments.map
          Prod.fst).toFinset.card :=
  vertex_attribute_remap_idempotent 30 [⟨0, 8, 0⟩]
    [⟨0, 8, 32⟩, ⟨0, 12, 32⟩] 1
    (RemapState.mk [((0, 8), ⟨1, 8, 0⟩)] 2 [((0, 8), 1), ((0, 8), 1)])
    (by decide)

end Gfx
